import Mathlib

/-!
Verification of the card-generation tool (`cardgen.py`) of the
boardgame-tools repository.

The development shallowly embeds the functions of `cardgen.py` that the
specification's claims are about:

* `parse_csv` (source lines 37-46): expands each CSV line into
  repeat-count many item instances;
* `apply_template` (source lines 67-74): text placeholder substitution
  driven by the regex `\[%(\d+)\]` via `re.search` / `re.sub`;
* `apply_subsvg` (source lines 77-108): embedding of an external SVG
  fragment located through the regex `\[(.*%(\d+)\.svg)\]` on a `label`
  attribute;
* the pagination loop of `main` (source lines 232-307), including the
  output-filename zero padding (lines 222-223, 303);
* `svgs_to_pdfs` / `merge_pdfs` and the tail of `main`
  (lines 111-170, 309-312): the conversion/merge pipeline.

Python strings are modelled as `String` / `List Char`, Python ints as
`Int` (with `Nat` where the source value is provably non-negative),
fallible code as `Option` / `Except`, and the filesystem as an explicit
lookup function.  The thread pool of `svgs_to_pdfs` is modelled by its
single-worker sequential semantics, which fixes the observable order in
which jobs are popped from the shared FIFO list and errors are recorded.
-/

namespace Cardgen

/-! ## Character and digit utilities -/

/-- Value of a list of decimal digit characters, most significant first
(the semantics of Python `int` applied to a digit string). -/
def digitsToNat (ds : List Char) : Nat :=
  ds.foldl (fun a c => a * 10 + (c.toNat - 48)) 0

/-- Python `str.strip('\n')`: remove newline characters from both ends. -/
def stripNL (cs : List Char) : List Char :=
  ((cs.dropWhile (fun c => c = '\n')).reverse.dropWhile (fun c => c = '\n')).reverse

/-- Python `int(s)` on a string: optional surrounding spaces, an optional
sign, then at least one decimal digit; anything else raises `ValueError`,
modelled as `none`. -/
def pyInt (s : String) : Option Int :=
  let cs := ((s.toList.dropWhile (fun c => c = ' ')).reverse.dropWhile
      (fun c => c = ' ')).reverse
  match cs with
  | '-' :: ds =>
      if ds ≠ [] ∧ ds.all Char.isDigit then some (-(digitsToNat ds : Int)) else none
  | '+' :: ds =>
      if ds ≠ [] ∧ ds.all Char.isDigit then some ((digitsToNat ds : Int)) else none
  | ds =>
      if ds ≠ [] ∧ ds.all Char.isDigit then some ((digitsToNat ds : Int)) else none

/-- Python `str.split(sep)` for a one-character separator: split at every
occurrence, keeping empty pieces; the result is never empty. -/
def splitSep (sep : Char) : List Char → List (List Char)
  | [] => [[]]
  | c :: rest =>
      if c = sep then [] :: splitSep sep rest
      else
        match splitSep sep rest with
        | [] => [[c]]
        | f :: r => (c :: f) :: r

theorem splitSep_ne_nil (sep : Char) (cs : List Char) : splitSep sep cs ≠ [] := by
  induction cs with
  | nil => simp [splitSep]
  | cons c rest ih =>
      simp only [splitSep]
      split
      · simp
      · cases h : splitSep sep rest with
        | nil => simp
        | cons f r => simp

/-! ## Row store: `parse_csv` (source lines 37-46) -/

/-- `line.strip('\n').split(sep)`, as performed on each CSV line. -/
def split_fields (sep : Char) (line : String) : List String :=
  (splitSep sep (stripNL line.toList)).map (fun cs => String.mk cs)

theorem split_fields_ne_nil (sep : Char) (line : String) :
    split_fields sep line ≠ [] := by
  unfold split_fields
  intro h
  exact splitSep_ne_nil sep (stripNL line.toList) (List.map_eq_nil_iff.mp h)

/-- One iteration of the `parse_csv` loop: `tmp = line.strip('\n').split(sep)`
then `[tmp[1:]] * int(tmp[0])`.  Python list multiplication by a
non-positive integer yields the empty list (`Int.toNat` of a negative is 0).
`none` models the `ValueError` raised by `int` on a malformed count. -/
def expandLine (sep : Char) (line : String) : Option (List (List String)) :=
  let tmp := split_fields sep line
  (pyInt (tmp.headD "")).map (fun n => List.replicate n.toNat (tmp.drop 1))

/-- Sequence a fallible function over a list, failing on the first failure
(the exception semantics of the `for line in f` loop). -/
def optMapAll {α β : Type} (f : α → Option β) : List α → Option (List β)
  | [] => some []
  | a :: l =>
      match f a, optMapAll f l with
      | some b, some bs => some (b :: bs)
      | _, _ => none

/-- `parse_csv(fname, sep, skip_first)` (source lines 37-46), with the
file contents given as the list of its lines. -/
def parse_csv (lines : List String) (sep : Char) (skip_first : Bool) :
    Option (List (List String)) :=
  let ls := if skip_first then lines.drop 1 else lines
  (optMapAll (expandLine sep) ls).map List.flatten

/-- The repeat count contributed by one line: `int(tmp[0])` clamped at 0
(Python `[x] * n` is empty for `n ≤ 0`). -/
def row_count (sep : Char) (line : String) : Nat :=
  ((pyInt ((split_fields sep line).headD "")).getD 0).toNat

/-! ## Text placeholder engine: `apply_template` (source lines 67-74) -/

/-- Try to match the regex `\[%(\d+)\]` at the head of the list: `'['`,
`'%'`, a maximal non-empty run of digits, `']'`.  Returns the numeric
group and the remainder after the match. -/
def tmplMatchHere (cs : List Char) : Option (Nat × List Char) :=
  match cs with
  | '[' :: '%' :: rest =>
      match rest.dropWhile Char.isDigit with
      | ']' :: after =>
          if (rest.takeWhile Char.isDigit).isEmpty then none
          else some (digitsToNat (rest.takeWhile Char.isDigit), after)
      | _ => none
  | _ => none

theorem tmplMatchHere_length {cs : List Char} {n : Nat} {after : List Char}
    (h : tmplMatchHere cs = some (n, after)) : after.length < cs.length := by
  unfold tmplMatchHere at h
  split at h
  next rest =>
    split at h
    next after' hdrop =>
      split at h
      · exact absurd h (by simp)
      · have hinj := Option.some.inj h
        have hafter : after' = after := congrArg Prod.snd hinj
        subst hafter
        have hle : (List.dropWhile Char.isDigit rest).length ≤ rest.length :=
          (List.dropWhile_sublist Char.isDigit).length_le
        rw [hdrop] at hle
        simp only [List.length_cons] at hle ⊢
        omega
    next => exact absurd h (by simp)
  next => exact absurd h (by simp)

/-- `re.search` of `\[%(\d+)\]` over the text: the group of the leftmost
match, if any. -/
def tmplSearch : List Char → Option Nat
  | [] => none
  | c :: rest =>
      match tmplMatchHere (c :: rest) with
      | some (n, _) => some n
      | none => tmplSearch rest

/-- `re.sub` of `\[%(\d+)\]` with a fixed replacement: replace every
non-overlapping match, scanning left to right.  Structural recursion on a
fuel argument; every step consumes at least one character
(`tmplMatchHere_length`), so fuel `s.length` never runs out. -/
def tmplSubAllF (repl : List Char) : Nat → List Char → List Char
  | 0, s => s
  | _ + 1, [] => []
  | fuel + 1, c :: rest =>
      match tmplMatchHere (c :: rest) with
      | some p => repl ++ tmplSubAllF repl fuel p.2
      | none => c :: tmplSubAllF repl fuel rest

/-- `re.sub` of `\[%(\d+)\]` over the whole string. -/
def tmplSubAll (repl : List Char) (s : List Char) : List Char :=
  tmplSubAllF repl s.length s

/-- Python `value.replace('\\n', '\n')`: rewrite each literal
backslash-n pair to a newline character, left to right. -/
def unescapeNewlines : List Char → List Char
  | '\\' :: 'n' :: rest => '\n' :: unescapeNewlines rest
  | c :: rest => c :: unescapeNewlines rest
  | [] => []

/-- The `IndexError` raised by `csv_row[int(match.group(1))]` when the
placeholder index is out of range. -/
inductive TemplateError : Type where
  | indexError : TemplateError
deriving DecidableEq

/-- `apply_template(text, csv_row)` (source lines 67-74).  `text` is the
optional text of a node (`none` models Python `None`); an empty string is
falsy and also returns `None`.  On a match, the replacement text is the
referenced field with `\n` sequences unescaped, and `re.sub` rewrites
every match of the pattern in the string with it. -/
def apply_template (text : Option String) (csv_row : List String) :
    Except TemplateError (Option String) :=
  match text with
  | none => Except.ok none
  | some t =>
      if t.isEmpty then Except.ok none
      else
        match tmplSearch t.toList with
        | some n =>
            if h : n < csv_row.length then
              Except.ok (some (String.mk
                (tmplSubAll (unescapeNewlines (csv_row.get ⟨n, h⟩).toList) t.toList)))
            else Except.error TemplateError.indexError
        | none => Except.ok none

/-! ## Fragment embedding: `apply_subsvg` (source lines 77-108) -/

/-- A node of the XML tree (`xml.etree.ElementTree.Element`): a tag, an
attribute mapping (modelled as an association list in iteration order),
optional text, and children. -/
structure XmlNode : Type where
  tag : String
  attrib : List (String × String)
  text : Option String
  children : List XmlNode

/-- Try to match `%(\d+)\.svg\]` at the head of the list: `'%'`, a maximal
non-empty run of digits, then the literal `.svg]`.  Returns the digit
group and the remainder after the `']'`.  (As the digit run is maximal
and `'.'` is not a digit, no regex backtracking can succeed otherwise.) -/
def pctSvgHere (cs : List Char) : Option (List Char × List Char) :=
  match cs with
  | '%' :: rest =>
      let ds := rest.takeWhile Char.isDigit
      if ds.isEmpty then none
      else
        let rest' := rest.dropWhile Char.isDigit
        if ['.', 's', 'v', 'g', ']'].isPrefixOf rest' then
          some (ds, rest'.drop 5)
        else none
  | _ => none

/-- Greedy decomposition for `.*%(\d+)\.svg\]`: the rightmost position at
which `%(\d+)\.svg\]` completes (a greedy `.*` backtracks from the right).
Returns `(before, digits, rest)` with
`cs = before ++ '%' :: digits ++ ".svg]" ++ rest`. -/
def splitLastPct : List Char → Option (List Char × List Char × List Char)
  | [] => none
  | c :: rest =>
      match splitLastPct rest with
      | some (a, d, r) => some (c :: a, d, r)
      | none =>
          match pctSvgHere (c :: rest) with
          | some (d, r) => some ([], d, r)
          | none => none

/-- `SUBSVG_REGEX.match(value)` for `\[(.*%(\d+)\.svg)\]` (anchored at the
start of the string, trailing characters allowed): returns
`(group 1, group 2)`, i.e. the path pattern and its digit group.  `.*`
cannot cross a newline, and every other matched character is not a
newline either, so the whole match lies in the first line of the value. -/
def subsvgMatch (value : String) : Option (List Char × List Char) :=
  match value.toList with
  | '[' :: rest =>
      match splitLastPct (rest.takeWhile (fun c => c ≠ '\n')) with
      | some (a, d, _) => some (a ++ '%' :: d ++ ['.', 's', 'v', 'g'], d)
      | none => none
  | _ => none

/-- Python `str.replace(pat, repl)`: rewrite every non-overlapping
occurrence, scanning left to right (`pat` is non-empty at every use, so
each step consumes at least one character and fuel `s.length` suffices). -/
def replaceAllF (pat repl : List Char) : Nat → List Char → List Char
  | 0, s => s
  | _ + 1, [] => []
  | fuel + 1, c :: rest =>
      if pat ≠ [] ∧ pat.isPrefixOf (c :: rest) then
        repl ++ replaceAllF pat repl fuel ((c :: rest).drop pat.length)
      else c :: replaceAllF pat repl fuel rest

/-- Python `str.replace(pat, repl)` over the whole string. -/
def replaceAll (pat repl : List Char) (s : List Char) : List Char :=
  replaceAllF pat repl s.length s

/-- `os.path.join(a, b)` for the cases arising here: an absolute `b`
discards `a`. -/
def pyPathJoin (a b : String) : String :=
  if b.toList.headD ' ' = '/' then b else a ++ "/" ++ b

/-- Is `pat` a contiguous sublist of the second argument? -/
def listContains (pat : List Char) : List Char → Bool
  | [] => pat.isEmpty
  | c :: rest => pat.isPrefixOf (c :: rest) || listContains pat rest

/-- Python `pat in s` on strings: substring test. -/
def strContains (s pat : String) : Bool :=
  listContains pat.toList s.toList

/-- Key lookup in the attribute mapping. -/
def attr_get (attrs : List (String × String)) (a : String) : String :=
  ((attrs.find? (fun p => p.1 = a)).map (fun p => p.2)).getD ""

/-- Key membership in the attribute mapping. -/
def has_attr (attrs : List (String × String)) (a : String) : Bool :=
  attrs.any (fun p => p.1 = a)

/-- The loop of `apply_subsvg` over `node.attrib.iteritems()`: the first
attribute whose name contains `label` and whose value matches
`SUBSVG_REGEX` supplies the match (then `break`); a `label` attribute
that does not match is skipped. -/
def find_label_match : List (String × String) → Option (List Char × List Char)
  | [] => none
  | (a, v) :: rest =>
      if strContains a "label" then
        match subsvgMatch v with
        | some m => some m
        | none => find_label_match rest
      else find_label_match rest

/-- The exceptions `apply_subsvg` can raise, in the spec's taxonomy:
`missingFragment` is the `OSError` for a non-existent fragment file
(MissingFragmentError), `missingAttribute` the `ValueError` for a host
node without `x`/`y`/`width`/`height` (MissingAttributeError),
`indexError` the `IndexError` for an out-of-range field index
(UnresolvedReferenceError), and `missingWH` the `KeyError` when the
loaded fragment root lacks a `width`/`height` attribute. -/
inductive SubsvgError : Type where
  | missingFragment (fname : String) : SubsvgError
  | missingAttribute : SubsvgError
  | indexError : SubsvgError
  | missingWH : SubsvgError
deriving DecidableEq

/-- `apply_subsvg(node, csv_row, template_dir)` (source lines 77-108).
The filesystem is modelled by `fs`, mapping a path to the parsed root
element of the SVG file there (`none` when `os.path.isfile` is false).
Returns the possibly rewritten node and the `True`/`False` flag of the
source.  The source order of effects is kept: the field index is read
while building `fname`, then the existence check, then the file is
loaded, then the host attributes are checked, then the wrapper node is
assembled. -/
def apply_subsvg (node : XmlNode) (csv_row : List String) (template_dir : String)
    (fs : String → Option XmlNode) : Except SubsvgError (XmlNode × Bool) :=
  match find_label_match node.attrib with
  | none => Except.ok (node, false)
  | some (g1, d) =>
      if h : digitsToNat d < csv_row.length then
        let fname := pyPathJoin template_dir
          (String.mk (replaceAll ('%' :: d) (csv_row.get ⟨digitsToNat d, h⟩).toList g1))
        match fs fname with
        | none => Except.error (SubsvgError.missingFragment fname)
        | some root =>
            if (["x", "y", "width", "height"].all (has_attr node.attrib)) then
              if has_attr root.attrib "width" ∧ has_attr root.attrib "height" then
                Except.ok
                  ({ tag := "svg"
                     attrib := [("xmlns", "http://www.w3.org/2000/svg"),
                                ("x", attr_get node.attrib "x"),
                                ("y", attr_get node.attrib "y"),
                                ("width", attr_get node.attrib "width"),
                                ("height", attr_get node.attrib "height"),
                                ("viewBox", "0 0 " ++ attr_get root.attrib "width"
                                  ++ " " ++ attr_get root.attrib "height"),
                                ("preserveAspectRatio", "xMidYMid meet")]
                     text := none
                     children := root.children }, true)
              else Except.error SubsvgError.missingWH
            else Except.error SubsvgError.missingAttribute
      else Except.error SubsvgError.indexError

/-! ## Pagination (source lines 232-307) -/

/-- Cards placed on one page: the nested `for x in xrange(args.width)`,
`for y in xrange(args.height)` loops with the `break` on exhaustion
place `min (W·H) (card_count - index)` template copies.  `xrange` of a
non-positive bound is empty, hence `Int.toNat`. -/
def cellsPerPage (W H : Int) : Nat :=
  W.toNat * H.toNat

/-- The `while` loop of `main` (lines 235-307), reduced to its consumption
observables: `idx` is `index`, `pages` collects the number of cells
filled on each produced page (one entry per `output_fnames` element).
`cap = 0` models an unset `--pages` (Python falsiness of 0).  `fuel`
bounds the number of iterations; `none` means the loop was still running
when the fuel ran out (the source has no other exit). -/
def mainLoop (cells K cap : Nat) : Nat → Nat → List Nat → Option (List Nat)
  | 0, _, _ => none
  | fuel + 1, idx, pages =>
      if idx < K ∧ (cap = 0 ∨ pages.length < cap) then
        mainLoop cells K cap fuel (idx + min cells (K - idx))
          (pages ++ [min cells (K - idx)])
      else some pages

/-- Page production of `main` for grid `W × H`, `K` item instances and a
page cap `cap` (`0` = no cap), run for at most `fuel` loop iterations. -/
def paginate (W H : Int) (K cap fuel : Nat) : Option (List Nat) :=
  mainLoop (cellsPerPage W H) K cap fuel 0 []

/-- `card_count = len(csv) if csv else args.width * args.height`
(line 222): an empty (or absent) row list is falsy, so the count falls
back to `W * H`. -/
def card_count (csv : Option (List (List String))) (W H : Int) : Int :=
  match csv with
  | some rows => if rows.isEmpty then W * H else (rows.length : Int)
  | none => W * H

/-- The `if csv:` guard of the substitution block (line 277): per-item
substitution runs only when the parsed row list is truthy, i.e. present
and non-empty. -/
def substitutionActive (csv : Option (List (List String))) : Bool :=
  match csv with
  | some rows => ¬ rows.isEmpty
  | none => false

/-! ## Output filenames (source lines 222-223 and 303) -/

/-- `digits = int(math.log10(card_count))` (line 223): `none` models the
`ValueError` of `math.log10` on a non-positive count. -/
def out_digits (count : Int) : Option Nat :=
  if count ≤ 0 then none else some (Nat.log 10 count.toNat)

/-- Python `str.zfill(width)` on an unsigned string: left-pad with `'0'`
to `width`; a string at least that long is unchanged. -/
def zfill (s : String) (w : Nat) : String :=
  if w ≤ s.length then s
  else String.mk (List.replicate (w - s.length) '0') ++ s

/-- `'%s_%s.svg' % (args.out, str(filenum).zfill(digits))` (line 303). -/
def page_fname (out_base : String) (filenum : Nat) (digits : Nat) : String :=
  out_base ++ "_" ++ zfill (toString filenum) digits ++ ".svg"

/-! ## Conversion and merge pipeline (source lines 111-170 and 309-312) -/

/-- The `conv` worker loop of `svgs_to_pdfs` (lines 131-142) in its
single-worker sequential semantics: jobs are popped from the front of the
shared list while it is non-empty and no error has been recorded; each
popped job's external `inkscape` call either succeeds (`none`) or records
its exception (`some e`).  Returns the number of external calls made and
the recorded error list. -/
def convLoop {ε : Type} : List (Option ε) → Nat × List ε
  | [] => (0, [])
  | j :: rest =>
      match j with
      | none =>
          let r := convLoop rest
          (r.1 + 1, r.2)
      | some e => (1, [e])

/-- `svgs_to_pdfs(svg_fnames, out_base)` (lines 111-156): each SVG page is
given a PDF name - a fresh temporary file when there is more than one
page, else directly `out_base + '.pdf'` - then `cpu` worker threads are
started to drain the job list, and after joining, the first recorded
error (if any) is re-raised.  Jobs carry their conversion outcome
(`none` = the external tool succeeds); `tmp` names the temporary file of
the i-th job.  Returns the result, the number of external conversion
calls, and the number of worker threads started. -/
def svgs_to_pdfs (jobs : List (Option ε)) (out_base : String)
    (tmp : Nat → String) (cpu : Nat) : Except ε (List String) × Nat × Nat :=
  let names := (List.range jobs.length).map
    (fun i => if jobs.length > 1 then tmp i else out_base ++ ".pdf")
  let r := convLoop jobs
  (match r.2 with
   | [] => Except.ok names
   | e :: _ => Except.error e, r.1, cpu)

/-- `merge_pdfs(pdf_fnames, out_base)` (lines 159-170): `pdfunite` is
invoked exactly once when there is more than one PDF, else nothing
happens.  Returns the number of `pdfunite` invocations. -/
def merge_pdfs (pdf_fnames : List String) : Nat :=
  if pdf_fnames.length > 1 then 1 else 0

/-- Observables of the PDF stage of `main`. -/
structure PdfRun (ε : Type) : Type where
  outcome : Except ε Unit
  convCalls : Nat
  threads : Nat
  mergeCalls : Nat

/-- The tail of `main` in `--pdf` mode (lines 309-312):
`pdf_fnames = svgs_to_pdfs(...)` followed by `merge_pdfs(...)`.  An
exception from `svgs_to_pdfs` propagates, so `merge_pdfs` is never
reached on a conversion failure. -/
def main_pdf_stage (jobs : List (Option ε)) (out_base : String)
    (tmp : Nat → String) (cpu : Nat) : PdfRun ε :=
  let s := svgs_to_pdfs jobs out_base tmp cpu
  match s.1 with
  | Except.error e => ⟨Except.error e, s.2.1, s.2.2, 0⟩
  | Except.ok names => ⟨Except.ok (), s.2.1, s.2.2, merge_pdfs names⟩

/-! ## Helper lemmas -/

theorem expandLine_eq {sep : Char} {l : String} {r : List (List String)}
    (h : expandLine sep l = some r) :
    r = List.replicate (row_count sep l) ((split_fields sep l).drop 1) := by
  unfold expandLine at h
  obtain ⟨n, hn, heq⟩ := Option.map_eq_some'.mp h
  unfold row_count
  rw [hn, ← heq]
  rfl

theorem optMapAll_expand (sep : Char) :
    ∀ (ls : List String) (out : List (List (List String))),
      optMapAll (expandLine sep) ls = some out →
      out = ls.map (fun l => List.replicate (row_count sep l)
        ((split_fields sep l).drop 1)) := by
  intro ls
  induction ls with
  | nil =>
      intro out h
      simp only [optMapAll] at h
      simp [← Option.some.inj h]
  | cons a l ih =>
      intro out h
      unfold optMapAll at h
      cases hfa : expandLine sep a with
      | none => rw [hfa] at h; exact absurd h (by simp)
      | some b =>
          cases hrest : optMapAll (expandLine sep) l with
          | none => rw [hfa, hrest] at h; exact absurd h (by simp)
          | some bs =>
              rw [hfa, hrest] at h
              have hout : b :: bs = out := Option.some.inj h
              rw [← hout, List.map_cons, expandLine_eq hfa, ih bs hrest]

theorem mainLoop_run (cells K cap : Nat) (hc : 1 ≤ cells) :
    ∀ (fuel idx : Nat) (pages : List Nat),
      idx ≤ K → K - idx < fuel → (cap ≠ 0 → pages.length ≤ cap) →
      ∃ ps, mainLoop cells K cap fuel idx pages = some (pages ++ ps) ∧
        (∀ p ∈ ps, 0 < p ∧ p ≤ cells) ∧
        (idx + ps.sum = K ∨ (cap ≠ 0 ∧ (pages ++ ps).length = cap ∧ idx + ps.sum ≤ K)) := by
  intro fuel
  induction fuel with
  | zero => intro idx pages hidx hfuel hcap; omega
  | succ fuel ih =>
      intro idx pages hidx hfuel hcap
      by_cases hcond : idx < K ∧ (cap = 0 ∨ pages.length < cap)
      · have hpage1 : 1 ≤ min cells (K - idx) := le_min hc (by omega)
        have hpagele : min cells (K - idx) ≤ K - idx := min_le_right _ _
        have hcap' : cap ≠ 0 → (pages ++ [min cells (K - idx)]).length ≤ cap := by
          intro hc0
          rcases hcond.2 with h0 | hlt
          · exact absurd h0 hc0
          · simp only [List.length_append, List.length_cons, List.length_nil]
            omega
        have hidx' : idx + min cells (K - idx) ≤ K := by omega
        have hfuel' : K - (idx + min cells (K - idx)) < fuel := by omega
        obtain ⟨ps, hrun, hbnd, hterm⟩ := ih (idx + min cells (K - idx))
          (pages ++ [min cells (K - idx)]) hidx' hfuel' hcap'
        refine ⟨min cells (K - idx) :: ps, ?_, ?_, ?_⟩
        · simp only [mainLoop, if_pos hcond]
          rw [hrun, List.append_assoc]
          rfl
        · intro p hp
          rcases List.mem_cons.mp hp with h | h
          · exact h ▸ ⟨hpage1, min_le_left _ _⟩
          · exact hbnd p h
        · rcases hterm with h | ⟨hc0, hlen, hsum⟩
          · left
            simp only [List.sum_cons]
            omega
          · right
            refine ⟨hc0, ?_, ?_⟩
            · simp only [List.length_append, List.length_cons, List.length_nil] at hlen ⊢
              omega
            · simp only [List.sum_cons]
              omega
      · refine ⟨[], ?_, by simp, ?_⟩
        · simp only [mainLoop, if_neg hcond, List.append_nil]
        · by_cases hik : idx < K
          · have h2 : ¬(cap = 0 ∨ pages.length < cap) := fun hor => hcond ⟨hik, hor⟩
            push_neg at h2
            right
            have := hcap h2.1
            simp only [List.append_nil, List.sum_nil]
            exact ⟨h2.1, by omega, by omega⟩
          · left
            simp only [List.sum_nil]
            omega

theorem mainLoop_zero_cells (K : Nat) :
    ∀ (fuel idx : Nat) (pages : List Nat), idx < K →
      mainLoop 0 K 0 fuel idx pages = none := by
  intro fuel
  induction fuel with
  | zero => intro idx pages hidx; rfl
  | succ fuel ih =>
      intro idx pages hidx
      simp only [mainLoop, Nat.zero_min, Nat.add_zero]
      split
      · exact ih idx (pages ++ [0]) hidx
      · next hn => exact absurd ⟨hidx, by simp⟩ hn

theorem mainLoop_zero_cells_capped (K cap : Nat) :
    ∀ (fuel idx : Nat) (pages : List Nat), idx < K → 1 ≤ cap → pages.length ≤ cap →
      cap - pages.length < fuel →
      mainLoop 0 K cap fuel idx pages =
        some (pages ++ List.replicate (cap - pages.length) 0) := by
  intro fuel
  induction fuel with
  | zero => intro idx pages _ _ _ hf; omega
  | succ fuel ih =>
      intro idx pages hidx hcap hlen hf
      by_cases hlt : pages.length < cap
      · have hcond : idx < K ∧ (cap = 0 ∨ pages.length < cap) := ⟨hidx, Or.inr hlt⟩
        simp only [mainLoop, if_pos hcond, Nat.zero_min, Nat.add_zero]
        rw [ih idx (pages ++ [0]) hidx hcap
          (by simp only [List.length_append, List.length_cons, List.length_nil]; omega)
          (by simp only [List.length_append, List.length_cons, List.length_nil]; omega)]
        congr 1
        rw [List.append_assoc]
        congr 1
        simp only [List.length_append, List.length_cons, List.length_nil]
        have hstep : cap - pages.length = (cap - (pages.length + 1)) + 1 := by omega
        rw [hstep, List.replicate_succ]
        rfl
      · have hcond : ¬(idx < K ∧ (cap = 0 ∨ pages.length < cap)) := by
          rintro ⟨_, h0 | hl⟩
          · omega
          · exact hlt hl
        simp only [mainLoop, if_neg hcond]
        have h0 : cap - pages.length = 0 := by omega
        rw [h0]
        simp

theorem zfill_length (s : String) (w : Nat) : (zfill s w).length = max s.length w := by
  unfold zfill
  split
  · omega
  · rw [String.length_append]
    have hmk : (String.mk (List.replicate (w - s.length) '0')).length = w - s.length :=
      List.length_replicate _ _
    omega

theorem convLoop_first_error {ε : Type} (e : ε) (post : List (Option ε)) :
    ∀ pre : List (Option ε), (∀ j ∈ pre, j = none) →
      convLoop (pre ++ some e :: post) = (pre.length + 1, [e]) := by
  intro pre
  induction pre with
  | nil => intro _; rfl
  | cons a l ih =>
      intro hpre
      have ha : a = none := hpre a (by simp)
      subst ha
      simp only [List.cons_append, convLoop, List.append_eq]
      rw [ih (fun j hj => hpre j (by simp [hj]))]
      simp

/-! ## Claim theorems -/

/-- **C1** (status: code bug).  Evidence at the failing input: one call of
`apply_template` on a text holding the two placeholders `[%0]` and `[%1]`
replaces *both* occurrences of the pattern with field 0's value (`re.sub`
substitutes every match), yielding `"aa"` - not `"a[%1]"` as the claimed
first-match-only contract (one placeholder occurrence per resolution
attempt, the rest left for later passes) would produce. -/
theorem claim_C1_code_behavior :
    apply_template (some "[%0][%1]") ["a", "b"] = Except.ok (some "aa") ∧
    (some "aa" : Option String) ≠ some "a[%1]" := by
  constructor
  · rfl
  · decide

/-- **C7** (status: confirmed).  For every well-formed tabular input
(one on which `parse_csv` succeeds), the row store's total length is the
sum of the per-line repeat counts, the store is exactly the
concatenation, in input order, of each line's contiguous block of
identical instances, and every instance has one field fewer than its
source line (the consumed repeat-count field). -/
theorem claim_C7 (lines : List String) (sep : Char) (sf : Bool)
    (res : List (List String)) (h : parse_csv lines sep sf = some res) :
    res.length = (((if sf then lines.drop 1 else lines).map (row_count sep)).sum) ∧
    res = ((if sf then lines.drop 1 else lines).map
      (fun l => List.replicate (row_count sep l) ((split_fields sep l).drop 1))).flatten ∧
    (∀ inst ∈ res, ∃ l ∈ (if sf then lines.drop 1 else lines),
      inst.length + 1 = (split_fields sep l).length) := by
  unfold parse_csv at h
  obtain ⟨out, hout, hflat⟩ := Option.map_eq_some'.mp h
  have hmap := optMapAll_expand sep _ out hout
  subst hmap
  refine ⟨?_, ?_, ?_⟩
  · rw [← hflat]
    simp [List.length_flatten, Function.comp_def]
  · exact hflat.symm
  · intro inst hmem
    rw [← hflat] at hmem
    obtain ⟨blk, hblk, hinst⟩ := List.mem_flatten.mp hmem
    obtain ⟨l, hl, hfl⟩ := List.mem_map.mp hblk
    refine ⟨l, hl, ?_⟩
    rw [← hfl] at hinst
    rw [List.eq_of_mem_replicate hinst]
    have hpos : 0 < (split_fields sep l).length :=
      List.length_pos.mpr (split_fields_ne_nil sep l)
    simp only [List.length_drop]
    omega

/-- Witness for C7 at a concrete input: two lines with repeat counts 2
and 1, giving 3 instances. -/
theorem claim_C7_witness :
    ([["a", "b"], ["a", "b"], ["c"]] : List (List String)).length =
      ((["2,a,b", "1,c"] : List String).map (row_count ',')).sum ∧
    ([["a", "b"], ["a", "b"], ["c"]] : List (List String)) =
      ((["2,a,b", "1,c"] : List String).map
        (fun l => List.replicate (row_count ',' l) ((split_fields ',' l).drop 1))).flatten ∧
    (∀ inst ∈ ([["a", "b"], ["a", "b"], ["c"]] : List (List String)),
      ∃ l ∈ (["2,a,b", "1,c"] : List String),
        inst.length + 1 = (split_fields ',' l).length) := by
  have h := claim_C7 ["2,a,b", "1,c"] ',' false [["a", "b"], ["a", "b"], ["c"]] (by rfl)
  simpa using h

/-- **C9** (status: confirmed).  The literal two-character sequence `\n`
is left intact by `parse_csv` (parsing performs no unescaping) and is
turned into a real newline only by `apply_template`: resolving `[%0]`
against `["Goblin"]` yields `"Goblin"`, and against a field holding the
literal `\n` yields text with a real newline. -/
theorem claim_C9 :
    parse_csv ["1,Line1\\nLine2"] ',' false = some [["Line1\\nLine2"]] ∧
    apply_template (some "[%0]") ["Goblin"] = Except.ok (some "Goblin") ∧
    apply_template (some "[%0]") ["Line1\\nLine2"] = Except.ok (some "Line1\nLine2") := by
  refine ⟨by rfl, by rfl, by rfl⟩

/-- **C10** (status: confirmed).  A row whose first field parses as a
negative integer raises no error and contributes zero instances: Python
list multiplication by a negative count is empty, exactly as for a count
of zero. -/
theorem claim_C10 (sep : Char) (line : String) (n : Int)
    (hn : pyInt ((split_fields sep line).headD "") = some n) (hneg : n < 0) :
    expandLine sep line = some [] ∧ parse_csv [line] sep false = some [] := by
  have htn : n.toNat = 0 := Int.toNat_of_nonpos (le_of_lt hneg)
  have h1 : expandLine sep line = some [] := by
    simp only [expandLine]
    simp
    exact ⟨n, by simpa using hn, le_of_lt hneg⟩
  refine ⟨h1, ?_⟩
  simp [parse_csv, optMapAll, h1]

/-- Witness for C10: the row `-3,a,b` parses without error to an empty
store. -/
theorem claim_C10_witness :
    expandLine ',' "-3,a,b" = some [] ∧ parse_csv ["-3,a,b"] ',' false = some [] :=
  claim_C10 ',' "-3,a,b" (-3) (by rfl) (by decide)

/-- **C2** (status: confirmed).  For grid width `W ≥ 1`, height `H ≥ 1`
and `K ≥ 1` item instances, the pagination loop terminates (fuel `K + 1`
suffices), every produced page holds between 1 and `W·H` instance copies,
and production stops exactly when either all instances are consumed or
the page cap is reached; in particular `W = 2, H = 1, K = 3` yields the
pages `[2, 1]`, and a cap of 1 with 5 items yields the single page `[2]`
with the remaining 3 items unemitted. -/
theorem claim_C2 (W H : Int) (K cap : Nat) (hW : 1 ≤ W) (hH : 1 ≤ H) (hK : 1 ≤ K) :
    (∃ ps, paginate W H K cap (K + 1) = some ps ∧
      (∀ p ∈ ps, 0 < p ∧ p ≤ cellsPerPage W H) ∧
      (ps.sum = K ∨ (cap ≠ 0 ∧ ps.length = cap ∧ ps.sum ≤ K))) ∧
    paginate 2 1 3 0 4 = some [2, 1] ∧
    paginate 2 1 5 1 6 = some [2] ∧
    ([2] : List Nat).length = 1 ∧ ([2] : List Nat).sum < 5 := by
  refine ⟨?_, by rfl, by rfl, by rfl, by decide⟩
  have hc : 1 ≤ cellsPerPage W H := by
    unfold cellsPerPage
    have h1 : 1 ≤ W.toNat := by omega
    have h2 : 1 ≤ H.toNat := by omega
    exact Nat.mul_pos h1 h2
  obtain ⟨ps, hrun, hbnd, hterm⟩ :=
    mainLoop_run (cellsPerPage W H) K cap hc (K + 1) 0 [] (by omega) (by omega) (by simp)
  exact ⟨ps, by simpa using hrun, hbnd, by simpa using hterm⟩

/-- Witness for C2 at `W = 2, H = 1, K = 3`, no cap. -/
theorem claim_C2_witness :
    (∃ ps, paginate 2 1 3 0 (3 + 1) = some ps ∧
      (∀ p ∈ ps, 0 < p ∧ p ≤ cellsPerPage 2 1) ∧
      (ps.sum = 3 ∨ ((0 : Nat) ≠ 0 ∧ ps.length = 0 ∧ ps.sum ≤ 3))) ∧
    paginate 2 1 3 0 4 = some [2, 1] ∧
    paginate 2 1 5 1 6 = some [2] ∧
    ([2] : List Nat).length = 1 ∧ ([2] : List Nat).sum < 5 :=
  claim_C2 2 1 3 0 (by decide) (by decide) (by decide)

/-- **C3** (status: corrected; counterexample).  The claim asserts a
`LayoutError` (and no pages) whenever `W ≤ 0` or `H ≤ 0`, or when the
row store is empty while substitution was requested.  The code has no
such check: with `W = 0, K = 3` and a page cap of 1 a (zero-cell) page
*is* produced without error, and with `--csv` naming an empty row store
the run silently disables substitution, falls back to `card_count = W·H`
and produces a normal page. -/
theorem claim_C3_counterexample :
    paginate 0 1 3 1 2 = some [0] ∧
    substitutionActive (some ([] : List (List String))) = false ∧
    card_count (some ([] : List (List String))) 2 1 = 2 ∧
    paginate 2 1 (card_count (some ([] : List (List String))) 2 1).toNat 0 3 = some [2] ∧
    (some [2] : Option (List Nat)) ≠ some [] := by
  refine ⟨by rfl, by rfl, by rfl, by rfl, by decide⟩

/-- **C3** (status: corrected; amended claim).  No `LayoutError` exists:
with non-positive grid width *or* height every page holds zero cells, so
without a page cap the pagination loop never terminates (`none` for every
fuel), and with any page cap `P ≥ 1` it emits exactly `P` empty pages and
stops; with an empty row store while substitution was requested,
substitution is silently skipped and the card count falls back to
`W·H`. -/
theorem claim_C3_amended (K : Nat) (hK : 1 ≤ K) (W H : Int) (hWH : W ≤ 0 ∨ H ≤ 0) :
    (∀ fuel : Nat, paginate W H K 0 fuel = none) ∧
    (∀ cap : Nat, 1 ≤ cap → paginate W H K cap (cap + 1) = some (List.replicate cap 0)) ∧
    substitutionActive (some ([] : List (List String))) = false ∧
    (∀ W' H' : Int, card_count (some ([] : List (List String))) W' H' = W' * H') := by
  have hzero : cellsPerPage W H = 0 := by
    unfold cellsPerPage
    rcases hWH with h | h
    · have hz : W.toNat = 0 := by omega
      rw [hz, Nat.zero_mul]
    · have hz : H.toNat = 0 := by omega
      rw [hz, Nat.mul_zero]
  refine ⟨?_, ?_, by rfl, fun W' H' => by rfl⟩
  · intro fuel
    unfold paginate
    rw [hzero]
    exact mainLoop_zero_cells K fuel 0 [] hK
  · intro cap hcap
    unfold paginate
    rw [hzero]
    have h := mainLoop_zero_cells_capped K cap (cap + 1) 0 [] hK hcap
      (by simp) (by simp)
    simpa using h

/-- Witness for the amended C3, exercising both sides of the
non-positive-grid hypothesis: `K = 3` with `W = 0` (width case) and with
`W = 2, H = -1` (height case). -/
theorem claim_C3_amended_witness :
    ((∀ fuel : Nat, paginate 0 5 3 0 fuel = none) ∧
     (∀ cap : Nat, 1 ≤ cap → paginate 0 5 3 cap (cap + 1) = some (List.replicate cap 0)) ∧
     substitutionActive (some ([] : List (List String))) = false ∧
     (∀ W' H' : Int, card_count (some ([] : List (List String))) W' H' = W' * H')) ∧
    ((∀ fuel : Nat, paginate 2 (-1) 3 0 fuel = none) ∧
     (∀ cap : Nat, 1 ≤ cap → paginate 2 (-1) 3 cap (cap + 1) = some (List.replicate cap 0)) ∧
     substitutionActive (some ([] : List (List String))) = false ∧
     (∀ W' H' : Int, card_count (some ([] : List (List String))) W' H' = W' * H')) :=
  ⟨claim_C3_amended 3 (by decide) 0 5 (Or.inl (by decide)),
   claim_C3_amended 3 (by decide) 2 (-1) (Or.inr (by decide))⟩

/-- **C4** (status: confirmed).  When a conversion job fails after a
prefix of successful jobs, the pipeline surfaces exactly that first
recorded error (later jobs are abandoned by the fail-fast loop), the
stage's outcome is that error, and the merge step is never invoked. -/
theorem claim_C4 {ε : Type} (pre post : List (Option ε)) (e : ε) (out_base : String)
    (tmp : Nat → String) (cpu : Nat) (hpre : ∀ j ∈ pre, j = none) :
    (main_pdf_stage (pre ++ some e :: post) out_base tmp cpu).outcome = Except.error e ∧
    (main_pdf_stage (pre ++ some e :: post) out_base tmp cpu).mergeCalls = 0 := by
  have hcl := convLoop_first_error e post pre hpre
  constructor <;> simp [main_pdf_stage, svgs_to_pdfs, hcl]

/-- Witness for C4: jobs `[ok, fail 7, fail 8]` surface error 7 and never
merge. -/
theorem claim_C4_witness :
    (main_pdf_stage ([none, some 7, some 8] : List (Option Nat)) "out"
      (fun i => "tmp" ++ toString i) 2).outcome = Except.error 7 ∧
    (main_pdf_stage ([none, some 7, some 8] : List (Option Nat)) "out"
      (fun i => "tmp" ++ toString i) 2).mergeCalls = 0 :=
  claim_C4 [none] [some 8] 7 "out" (fun i => "tmp" ++ toString i) 2 (by decide)

/-- **C5** (status: corrected; counterexample).  The claim asserts that
with exactly one page no worker pool is spun up and conversion is
skipped.  In the code, the conversion of the single page still runs
(one external call) and the `cpu_count`-sized thread pool is still
started; only the merge is skipped. -/
theorem claim_C5_counterexample :
    svgs_to_pdfs ([none] : List (Option Nat)) "out" (fun i => "tmp" ++ toString i) 2 =
      (Except.ok ["out.pdf"], 1, 2) ∧
    (1 : Nat) ≠ 0 ∧ (2 : Nat) ≠ 0 := by
  refine ⟨by rfl, by decide, by decide⟩

/-- **C5** (status: corrected; amended claim).  When exactly one page
exists, the conversion still runs (one external call, through the
usual worker pool) but writes directly to the named output
`out_base.pdf` instead of a temporary file, and the merge step performs
nothing. -/
theorem claim_C5_amended (ε : Type) (out_base : String) (tmp : Nat → String) (cpu : Nat) :
    svgs_to_pdfs ([none] : List (Option ε)) out_base tmp cpu =
      (Except.ok [out_base ++ ".pdf"], 1, cpu) ∧
    merge_pdfs [out_base ++ ".pdf"] = 0 ∧
    (main_pdf_stage ([none] : List (Option ε)) out_base tmp cpu).mergeCalls = 0 ∧
    (main_pdf_stage ([none] : List (Option ε)) out_base tmp cpu).outcome = Except.ok () := by
  refine ⟨by rfl, by rfl, by rfl, by rfl⟩

/-- **C6** (status: confirmed).  For a total item count `K ≥ 1` the
padding width is `⌊log10 K⌋` digits; for `K = 1` it is 0, so page
indices are not padded at all and the filename is
`out_base + "_" + str(filenum) + ".svg"` verbatim. -/
theorem claim_C6 (K : Nat) (hK : 1 ≤ K) :
    out_digits (K : Int) = some (Nat.log 10 K) ∧
    out_digits 1 = some 0 ∧
    (∀ s : String, zfill s 0 = s) ∧
    (∀ n : Nat, (zfill (toString n) (Nat.log 10 K)).length =
      max (toString n).length (Nat.log 10 K)) ∧
    (∀ (out_base : String) (n : Nat),
      page_fname out_base n 0 = out_base ++ "_" ++ toString n ++ ".svg") := by
  refine ⟨?_, ?_, ?_, ?_, ?_⟩
  · unfold out_digits
    rw [if_neg (by omega)]
    simp
  · unfold out_digits
    rw [if_neg (by omega)]
    norm_num [Nat.log_one_right]
  · intro s
    unfold zfill
    rw [if_pos (Nat.zero_le _)]
  · intro n
    exact zfill_length (toString n) (Nat.log 10 K)
  · intro out_base n
    unfold page_fname zfill
    rw [if_pos (Nat.zero_le _)]

/-- Witness for C6 at `K = 37` (and the unpadded `K = 1` edge case). -/
theorem claim_C6_witness :
    out_digits ((37 : Nat) : Int) = some (Nat.log 10 37) ∧
    out_digits 1 = some 0 ∧
    (∀ s : String, zfill s 0 = s) ∧
    (∀ n : Nat, (zfill (toString n) (Nat.log 10 37)).length =
      max (toString n).length (Nat.log 10 37)) ∧
    (∀ (out_base : String) (n : Nat),
      page_fname out_base n 0 = out_base ++ "_" ++ toString n ++ ".svg") :=
  claim_C6 37 (by decide)

/-- **C8** (status: confirmed).  When a label attribute matches the embed
pattern and the field index is in range, `apply_subsvg` raises
`MissingFragmentError` whenever the resolved fragment path does not
exist, and raises `MissingAttributeError` whenever any of the host's
`x`, `y`, `width`, `height` attributes is absent even though the
fragment file exists - the existence check comes first. -/
theorem claim_C8 (node : XmlNode) (csv_row : List String) (template_dir : String)
    (fs : String → Option XmlNode) (g1 d : List Char)
    (hm : find_label_match node.attrib = some (g1, d))
    (hidx : digitsToNat d < csv_row.length) :
    (fs (pyPathJoin template_dir (String.mk (replaceAll ('%' :: d)
        (csv_row.get ⟨digitsToNat d, hidx⟩).toList g1))) = none →
      apply_subsvg node csv_row template_dir fs =
        Except.error (SubsvgError.missingFragment (pyPathJoin template_dir
          (String.mk (replaceAll ('%' :: d)
            (csv_row.get ⟨digitsToNat d, hidx⟩).toList g1))))) ∧
    (∀ root, fs (pyPathJoin template_dir (String.mk (replaceAll ('%' :: d)
        (csv_row.get ⟨digitsToNat d, hidx⟩).toList g1))) = some root →
      ¬ ((["x", "y", "width", "height"].all (has_attr node.attrib)) = true) →
      apply_subsvg node csv_row template_dir fs =
        Except.error SubsvgError.missingAttribute) := by
  constructor
  · intro hfs
    unfold apply_subsvg
    rw [hm]
    simp only [dif_pos hidx, hfs]
  · intro root hfs hattr
    unfold apply_subsvg
    rw [hm]
    simp only [dif_pos hidx, hfs, if_neg hattr]

/-- Witness for C8: a host `rect` node with a matching label and no
sizing attributes; with no file at the resolved path the fragment error
is raised, with a file present the attribute error is raised. -/
theorem claim_C8_witness :
    apply_subsvg ⟨"rect", [("inkscape:label", "[img/%0.svg]")], none, []⟩ ["gob"] "/t"
      (fun _ => none) = Except.error (SubsvgError.missingFragment "/t/img/gob.svg") ∧
    apply_subsvg ⟨"rect", [("inkscape:label", "[img/%0.svg]")], none, []⟩ ["gob"] "/t"
      (fun _ => some ⟨"svg", [("width", "10"), ("height", "20")], none, []⟩) =
      Except.error SubsvgError.missingAttribute := by
  constructor
  · exact (claim_C8 ⟨"rect", [("inkscape:label", "[img/%0.svg]")], none, []⟩ ["gob"] "/t"
      (fun _ => none) ("img/%0.svg".toList) ['0'] (by rfl) (by decide)).1 rfl
  · exact (claim_C8 ⟨"rect", [("inkscape:label", "[img/%0.svg]")], none, []⟩ ["gob"] "/t"
      (fun _ => some ⟨"svg", [("width", "10"), ("height", "20")], none, []⟩)
      ("img/%0.svg".toList) ['0'] (by rfl) (by decide)).2
      ⟨"svg", [("width", "10"), ("height", "20")], none, []⟩ rfl (by decide)

end Cardgen
